import Mathlib

/-!
Shallow embedding of the statistics engine of the log-analyzer repository
(`src/log-analyzer/js/stats.js`), together with theorems checking the
natural-language specification against it.

Modelling conventions:
* A payload value (`event.data.<key>`) is a `JVal` (number, boolean or
  string); an absent key is `none : Option JVal`.  JavaScript numbers are
  modelled as rationals (`ℚ`); the payloads handled by the engine never
  exercise binary-float rounding.
* JavaScript truthiness, strict equality, `String.prototype.includes` and
  `parseFloat` are modelled explicitly below.  `parseFloat` is modelled for
  decimal literals (optional sign, digits, optional fraction); exponent
  notation never occurs in the log payloads.  Calling `.includes` on a
  non-string value would throw in JavaScript; such payloads do not occur
  (the tokenizer only produces strings for symbol/error/message fields) and
  the model returns `false` there.
* The `Map` correlation tables are modelled as association lists
  (`List (key × value)`) preserving insertion order, with
  replace-or-append `set`, first-occurrence `get` and in-place `update`
  (modelling JS `get` followed by field mutation).
* The object `fastChase.fallbackReasons` is modelled as a total function
  `JVal → Nat` (absent key ↦ 0), keyed by the reason value.
-/

/-- A JavaScript payload value as produced by the tokenizer's coercion:
a number, a boolean, or a string. -/
inductive JVal where
  | num (q : ℚ)
  | bool (b : Bool)
  | str (s : String)
  deriving DecidableEq

/-- JavaScript truthiness of a payload value: `0`, `false` and `""` are
falsy, everything else is truthy. -/
def JVal.truthy : JVal → Bool
  | .num q => q != 0
  | .bool b => b
  | .str s => s != ""

/-- Truthiness of a possibly-absent value (`undefined` is falsy), returning
the value itself when truthy — models the pervasive `if (event.data.x)`
guards. -/
def truthyVal : Option JVal → Option JVal
  | none => none
  | some v => if v.truthy then some v else none

/-- `sub` occurs as a contiguous run inside `l`. -/
def listIncludes (l sub : List Char) : Bool :=
  match l with
  | [] => sub.isEmpty
  | _ :: rest => sub.isPrefixOf l || listIncludes rest sub

/-- `sub` occurs as a contiguous substring of `s`
(JavaScript `s.includes(sub)`). -/
def strIncludes (s sub : String) : Bool :=
  listIncludes s.toList sub.toList

/-- `event.message && event.message.includes(sub)`: the message is present,
non-empty (truthy) and contains `sub`. -/
def msgIncludes : Option String → String → Bool
  | none, _ => false
  | some s, sub => s != "" && strIncludes s sub

/-- `event.data.k && event.data.k.includes(sub)` for a payload value:
truthy and, when a string, containing `sub` (a truthy non-string would
throw in JS; never occurs, modelled as `false`). -/
def jvalIncludes (v : JVal) (sub : String) : Bool :=
  match v with
  | .str s => strIncludes s sub
  | _ => false

/-- Numeric value of a digit list (most significant first). -/
def digitsVal (l : List Char) : Nat :=
  l.foldl (fun a c => a * 10 + (c.toNat - 48)) 0

/-- Is `c` a decimal digit. -/
def isDigitChar (c : Char) : Bool :=
  '0' ≤ c && c ≤ '9'

/-- Unsigned decimal literal at the head of `l`:
digits, optionally followed by `.` and more digits. `none` when no digit
is found (JS `NaN`). -/
def parseUnsigned (l : List Char) : Option ℚ :=
  let intPart := l.takeWhile isDigitChar
  let rest := l.drop intPart.length
  match rest with
  | '.' :: rest2 =>
      let fracPart := rest2.takeWhile isDigitChar
      if intPart.isEmpty && fracPart.isEmpty then none
      else some ((digitsVal intPart : ℚ) + (digitsVal fracPart : ℚ) / ((10 : ℚ) ^ fracPart.length))
  | _ => if intPart.isEmpty then none else some (digitsVal intPart : ℚ)

/-- JavaScript `parseFloat` on a string, for decimal literals: leading
whitespace, optional sign, then an unsigned literal prefix; `none` models
`NaN`. -/
def parseFloatStr (s : String) : Option ℚ :=
  let l := s.toList.dropWhile (fun c => c == ' ' || c == '\t' || c == '\n' || c == '\r')
  match l with
  | '-' :: rest => (parseUnsigned rest).map (fun q => -q)
  | '+' :: rest => parseUnsigned rest
  | _ => parseUnsigned l

/-- JavaScript `parseFloat` applied to a possibly-absent payload value;
`none` models `NaN` (absent value, boolean, or non-numeric string). -/
def parseFloatJ : Option JVal → Option ℚ
  | none => none
  | some (.num q) => some q
  | some (.bool _) => none
  | some (.str s) => parseFloatStr s

/-- `parseFloat(a) || b` : keep `a`'s parse when it is a truthy number
(non-`NaN`, nonzero), otherwise fall back to `b`. -/
def orNonzero (a : Option ℚ) (b : ℚ) : ℚ :=
  match a with
  | some q => if q = 0 then b else q
  | none => b

/-- `a || b` on possibly-absent payload values: `a` when truthy, else `b`
(the second operand is returned as-is, like the JS operator). -/
def jsOr (a b : Option JVal) : Option JVal :=
  match truthyVal a with
  | some v => some v
  | none => b

/-- `a || d` where the default `d` is a present value
(e.g. `event.data.type || 'LIMIT'`). -/
def jsOrVal (a : Option JVal) (d : JVal) : JVal :=
  match truthyVal a with
  | some v => v
  | none => d

/-- Truthiness of `event.category` (a string tag or absent). -/
def catTruthy : Option String → Bool
  | none => false
  | some s => s != ""

section AList

variable {V : Type}

/-- First value bound to `k` (JS `Map.prototype.get`). -/
def alGet (m : List (JVal × V)) (k : JVal) : Option V :=
  match m with
  | [] => none
  | (k2, v) :: rest => if k2 = k then some v else alGet rest k

/-- Key membership (JS `Map.prototype.has`). -/
def alContains (m : List (JVal × V)) (k : JVal) : Bool :=
  match m with
  | [] => false
  | (k2, _) :: rest => k2 = k || alContains rest k

/-- Replace the binding of `k`, or append a new one
(JS `Map.prototype.set`). -/
def alSet (m : List (JVal × V)) (k : JVal) (v : V) : List (JVal × V) :=
  match m with
  | [] => [(k, v)]
  | (k2, v2) :: rest => if k2 = k then (k, v) :: rest else (k2, v2) :: alSet rest k v

/-- Mutate the value bound to `k` in place (JS `get` followed by field
assignment); no effect when `k` is absent. -/
def alUpdate (m : List (JVal × V)) (k : JVal) (f : V → V) : List (JVal × V) :=
  match m with
  | [] => []
  | (k2, v) :: rest => if k2 = k then (k2, f v) :: rest else (k2, v) :: alUpdate rest k f

end AList

/-- The payload keys read by the statistics engine; each is a
possibly-absent `JVal` (the source's `event.data` object). -/
structure EventData where
  order_id : Option JVal := none
  symbol : Option JVal := none
  side : Option JVal := none
  qty : Option JVal := none
  price : Option JVal := none
  pair_id : Option JVal := none
  latency_ms : Option JVal := none
  status : Option JVal := none
  error : Option JVal := none
  fill_type : Option JVal := none
  last_filled : Option JVal := none
  filled : Option JVal := none
  last_price : Option JVal := none
  fill_price : Option JVal := none
  retry_count : Option JVal := none
  reason : Option JVal := none
  orderType : Option JVal := none
  accumulated : Option JVal := none
  cumulative_filled : Option JVal := none
  total_filled : Option JVal := none
  usdt_order : Option JVal := none
  usdc_order : Option JVal := none
  deriving DecidableEq

/-- One parsed log line as consumed by the statistics engine
(the source's `event.data.type` key is modelled as `orderType` since
`type` is reserved in Lean). Timestamps are milliseconds since epoch. -/
structure LogEvent where
  timestamp : Int := 0
  level : String := "INFO"
  category : Option String := none
  subcategory : Option String := none
  message : Option String := none
  data : EventData := {}
  deriving DecidableEq

/-- `orderPairs` block of `SessionStats`. -/
structure OrderPairsStats where
  attempted : Nat := 0
  succeeded : Nat := 0
  deriving DecidableEq

/-- `orders` block of `SessionStats`. -/
structure OrdersStats where
  total : Nat := 0
  accepted : Nat := 0
  rejected : Nat := 0
  latencies : List JVal := []
  deriving DecidableEq

/-- `fills` block of `SessionStats`; `partCount`/`fullCount` are the
source's `fills.partial` / `fills.full`.  A price sample is the result of
`parseFloat` (`none` = `NaN`). -/
structure FillsStats where
  total : Nat := 0
  partCount : Nat := 0
  fullCount : Nat := 0
  totalQty : ℚ := 0
  usdtQty : ℚ := 0
  usdcQty : ℚ := 0
  prices : List (Option ℚ) := []
  deriving DecidableEq

/-- `fastChase` block of `SessionStats`; `fallbackReasons` maps a reason
value to its occurrence count (absent ↦ 0). -/
structure FastChaseStats where
  events : Nat := 0
  successes : Nat := 0
  retries : List JVal := []
  fallbackReasons : JVal → Nat := fun _ => 0

/-- `errors` block of `SessionStats`. -/
structure ErrorsStats where
  gtxRejections : Nat := 0
  apiErrors : Nat := 0
  timeouts : Nat := 0
  other : Nat := 0
  deriving DecidableEq

/-- Modelled from the spec: the `SessionStats` record (its class
definition lives outside `src/`); §3 of the spec lists exactly these
stored fields, all counters starting at zero and all sample lists empty.
Derived getters (rates, averages) are not stored. -/
structure SessionStats where
  runtime : Int := 0
  spreadTriggers : Nat := 0
  orderPairs : OrderPairsStats := {}
  orders : OrdersStats := {}
  fills : FillsStats := {}
  fastChase : FastChaseStats := {}
  errors : ErrorsStats := {}

/-- Entry of the `orderMap` correlation table
(order-id → order info, registered by `ORDER_SUBMIT`). -/
structure OrderInfo where
  symbol : Option JVal := none
  side : Option JVal := none
  qty : Option JVal := none
  price : Option JVal := none
  status : String := "pending"
  timestamp : Int := 0
  pairId : Option JVal := none
  deriving DecidableEq

/-- Entry of the `pairMap` correlation table
(pair-id → which currency legs have filled). -/
structure PairInfo where
  usdtFilled : Bool := false
  usdcFilled : Bool := false
  deriving DecidableEq

/-- The state threaded through the per-event reducer: the stats being
built plus the two correlation tables. -/
structure RState where
  stats : SessionStats := {}
  orderMap : List (JVal × OrderInfo) := []
  pairMap : List (JVal × PairInfo) := []

/-- `StatsCalculator.processFastChaseEvent`: classify a `FAST_CHASE` event
by message substring. -/
def processFastChaseEvent (e : LogEvent) (stats : SessionStats) : SessionStats :=
  let msg := match e.message with
    | some m => m
    | none => ""
  if strIncludes msg "Entering fast chase mode" then
    { stats with fastChase.events := stats.fastChase.events + 1 }
  else if strIncludes msg "Fast chase completed successfully" then
    let stats := { stats with fastChase.successes := stats.fastChase.successes + 1 }
    match e.data.retry_count with
    | some v => { stats with fastChase.retries := stats.fastChase.retries ++ [v] }
    | none => stats
  else if strIncludes msg "fallback" || strIncludes msg "Fallback" || strIncludes msg "FALLBACK" then
    let reason := jsOrVal e.data.reason (.str "unknown")
    { stats with fastChase.fallbackReasons :=
        fun k => if k = reason then stats.fastChase.fallbackReasons k + 1
                 else stats.fastChase.fallbackReasons k }
  else stats

/-- The `ORDER_SUBMIT` case of `processEvent`: count the order and
register its info under a truthy order-id. -/
def handleOrderSubmit (e : LogEvent) (st : RState) : RState :=
  let st := { st with stats.orders.total := st.stats.orders.total + 1 }
  match truthyVal e.data.order_id with
  | some oid =>
      let info : OrderInfo :=
        { symbol := e.data.symbol, side := e.data.side, qty := e.data.qty,
          price := e.data.price, status := "pending", timestamp := e.timestamp,
          pairId := e.data.pair_id }
      { st with orderMap := alSet st.orderMap oid info }
  | none => st

/-- `"GTX"` appears in a truthy `error` payload field or in the message
(the rejection branches of the `ORDER_RESPONSE` case). -/
def gtxHit (e : LogEvent) : Bool :=
  (match truthyVal e.data.error with
    | some v => jvalIncludes v "GTX"
    | none => false) || msgIncludes e.message "GTX"

/-- The latency sampling at the top of the `ORDER_RESPONSE` case:
a truthy `latency_ms` value is recorded regardless of outcome. -/
def respLatency (e : LogEvent) (st : RState) : RState :=
  match truthyVal e.data.latency_ms with
  | some v => { st with stats.orders.latencies := st.stats.orders.latencies ++ [v] }
  | none => st

/-- The `ORDER_RESPONSE` case of `processEvent`: record latency, then
classify acceptance/rejection and update the matched order. -/
def handleOrderResponse (e : LogEvent) (st : RState) : RState :=
  let st := respLatency e st
  let isAccepted := msgIncludes e.message "Order accepted"
  let isRejected := msgIncludes e.message "Order rejected"
  match truthyVal e.data.order_id with
  | some oid =>
      match alGet st.orderMap oid with
      | some _ =>
          if isAccepted || e.data.status = some (.str "accepted")
              || e.data.status = some (.str "NEW") then
            { st with
              orderMap := alUpdate st.orderMap oid (fun o => { o with status := "accepted" }),
              stats.orders.accepted := st.stats.orders.accepted + 1 }
          else if isRejected then
            let st := { st with
              orderMap := alUpdate st.orderMap oid (fun o => { o with status := "rejected" }),
              stats.orders.rejected := st.stats.orders.rejected + 1 }
            if gtxHit e then
              { st with stats.errors.gtxRejections := st.stats.errors.gtxRejections + 1 }
            else st
          else st
      | none =>
          if isAccepted then
            { st with stats.orders.accepted := st.stats.orders.accepted + 1 }
          else if isRejected then
            let st := { st with stats.orders.rejected := st.stats.orders.rejected + 1 }
            if gtxHit e then
              { st with stats.errors.gtxRejections := st.stats.errors.gtxRejections + 1 }
            else st
          else st
  | none => st

/-- The fill quantity accumulated by the `ORDER_FILL` case:
`parseFloat(last_filled) || parseFloat(filled) || parseFloat(qty) || 0`. -/
def fillQty (d : EventData) : ℚ :=
  orNonzero (parseFloatJ d.last_filled)
    (orNonzero (parseFloatJ d.filled) (orNonzero (parseFloatJ d.qty) 0))

/-- The settlement-currency symbol used by the `ORDER_FILL` case:
`event.data.symbol || ''`, falling back to a designated message substring
when falsy. -/
def fillSymbol (e : LogEvent) : JVal :=
  let symV := jsOrVal e.data.symbol (.str "")
  if !symV.truthy then
    match e.message with
    | some m =>
        if m ≠ "" then
          if strIncludes m "USDT order filled" then JVal.str "USDT"
          else if strIncludes m "USDC order filled" then JVal.str "USDC"
          else symV
        else symV
    | none => symV
  else symV

/-- The match-independent `fills` updates of the `ORDER_FILL` case:
fill counter, partial/full classification, quantity totals, currency
buckets and the price sample, exactly in source order. -/
def fillsUpdate (e : LogEvent) (f : FillsStats) : FillsStats :=
  let f := { f with total := f.total + 1 }
  let isPart := msgIncludes e.message "Partial fill"
  let f :=
    if isPart || e.data.fill_type = some (.str "partial") then
      { f with partCount := f.partCount + 1 }
    else
      { f with fullCount := f.fullCount + 1 }
  let f := { f with totalQty := f.totalQty + fillQty e.data }
  let f :=
    if jvalIncludes (fillSymbol e) "USDT" then
      { f with usdtQty := f.usdtQty + fillQty e.data }
    else if jvalIncludes (fillSymbol e) "USDC" then
      { f with usdcQty := f.usdcQty + fillQty e.data }
    else f
  if (truthyVal e.data.price).isSome then
    { f with prices := f.prices ++ [parseFloatJ e.data.price] }
  else if (truthyVal e.data.last_price).isSome then
    { f with prices := f.prices ++ [parseFloatJ e.data.last_price] }
  else if (truthyVal e.data.fill_price).isSome then
    { f with prices := f.prices ++ [parseFloatJ e.data.fill_price] }
  else f

/-- The match-independent part of the `ORDER_FILL` case: it only touches
the `fills` block. -/
def orderFillStats (e : LogEvent) (stats : SessionStats) : SessionStats :=
  { stats with fills := fillsUpdate e stats.fills }

/-- The correlation-dependent part of the `ORDER_FILL` case: update the
matched order's status and mark its pair leg as filled; a missing or
falsy order-id, or an unmatched one, changes nothing. -/
def orderFillCorrelate (e : LogEvent) (st : RState) : RState :=
  let isPart := msgIncludes e.message "Partial fill"
  match truthyVal e.data.order_id with
  | some oid =>
      match alGet st.orderMap oid with
      | some ord =>
          let setFill : OrderInfo → OrderInfo :=
            fun o => { o with status := if isPart then "partial" else "filled" }
          let st := { st with orderMap := alUpdate st.orderMap oid setFill }
          match truthyVal ord.pairId with
          | some pid =>
              let st :=
                if alContains st.pairMap pid then st
                else { st with pairMap := alSet st.pairMap pid ⟨false, false⟩ }
              if (match truthyVal ord.symbol with
                  | some v => jvalIncludes v "USDT"
                  | none => false) then
                { st with pairMap := alUpdate st.pairMap pid (fun p => { p with usdtFilled := true }) }
              else if (match truthyVal ord.symbol with
                  | some v => jvalIncludes v "USDC"
                  | none => false) then
                { st with pairMap := alUpdate st.pairMap pid (fun p => { p with usdcFilled := true }) }
              else st
          | none => st
      | none => st
  | none => st

/-- The `ORDER_FILL` case of `processEvent`: the match-independent
counter updates followed by the correlation-dependent updates. -/
def handleOrderFill (e : LogEvent) (st : RState) : RState :=
  orderFillCorrelate e { st with stats := orderFillStats e st.stats }

/-- The `PARALLEL_ORDER` / `PAIR_LINK` cases of `processEvent`: ensure a
pair-table entry exists for a truthy pair-id. -/
def handlePairEnsure (e : LogEvent) (st : RState) : RState :=
  match truthyVal e.data.pair_id with
  | some pid =>
      if alContains st.pairMap pid then st
      else { st with pairMap := alSet st.pairMap pid ⟨false, false⟩ }
  | none => st

/-- The `ORDER_STATE` case of `processEvent`: count a GTX rejection when
the message carries the marker. -/
def handleOrderState (e : LogEvent) (st : RState) : RState :=
  if msgIncludes e.message "GTX rejected" then
    { st with stats.errors.gtxRejections := st.stats.errors.gtxRejections + 1 }
  else st

/-- The timeout / API-error / other classification of the `default`
case, by message substring in that priority. -/
def errClassify (e : LogEvent) (err : ErrorsStats) : ErrorsStats :=
  if msgIncludes e.message "timeout" then { err with timeouts := err.timeouts + 1 }
  else if msgIncludes e.message "API" then { err with apiErrors := err.apiErrors + 1 }
  else { err with other := err.other + 1 }

/-- The `default` case of `processEvent`: classify an ERROR-level event
into timeout / API error / other by message substring. -/
def handleDefault (e : LogEvent) (st : RState) : RState :=
  if e.level = "ERROR" then
    { st with stats.errors := errClassify e st.stats.errors }
  else st

/-- `StatsCalculator.processEvent`: dispatch one event on its subcategory
and update the stats and correlation tables.  Events with a falsy
`category` are skipped entirely (the early `return`). -/
def processEvent (e : LogEvent) (st : RState) : RState :=
  if catTruthy e.category then
    if e.subcategory = some "SPREAD_MET" then
      { st with stats.spreadTriggers := st.stats.spreadTriggers + 1 }
    else if e.subcategory = some "ORDER_SUBMIT" then handleOrderSubmit e st
    else if e.subcategory = some "ORDER_RESPONSE" then handleOrderResponse e st
    else if e.subcategory = some "ORDER_FILL" then handleOrderFill e st
    else if e.subcategory = some "PARALLEL_ORDER" then handlePairEnsure e st
    else if e.subcategory = some "PAIR_LINK" then handlePairEnsure e st
    else if e.subcategory = some "FAST_CHASE" then
      { st with stats := processFastChaseEvent e st.stats }
    else if e.subcategory = some "BALANCE" then st
    else if e.subcategory = some "ORDER_STATE" then handleOrderState e st
    else if e.subcategory = some "ORDER_CANCEL" then st
    else if e.subcategory = some "ORDER_TIMEOUT" then
      { st with stats.errors.timeouts := st.stats.errors.timeouts + 1 }
    else handleDefault e st
  else st

/-- One strategy session as consumed by the statistics engine: its
duration and its ordered event sequence (the other `StrategySession`
attributes are not read by the verified functions). -/
structure Session where
  duration : Int := 0
  events : List LogEvent := []

/-- The final pass of `calculateSessionStats` over the pair table:
each pair counts as attempted, and as succeeded when both legs filled. -/
def pairLoopStep (stats : SessionStats) (kv : JVal × PairInfo) : SessionStats :=
  let stats := { stats with orderPairs.attempted := stats.orderPairs.attempted + 1 }
  if kv.2.usdtFilled && kv.2.usdcFilled then
    { stats with orderPairs.succeeded := stats.orderPairs.succeeded + 1 }
  else stats

/-- The reducer state after replaying a session's events
(`calculateSessionStats` before its final pair loop). -/
def sessionFold (s : Session) : RState :=
  s.events.foldl (fun acc e => processEvent e acc)
    { stats := { runtime := s.duration } }

/-- `StatsCalculator.calculateSessionStats`: replay the events through the
reducer, then derive the order-pair counters from the pair table. -/
def calculateSessionStats (s : Session) : SessionStats :=
  let st := sessionFold s
  st.pairMap.foldl pairLoopStep st.stats

/-- The body of the aggregation loop of `calculateAggregateStats`: add one
session's stats into the aggregate (scalars summed, sample lists
concatenated, fallback reasons merged per key). -/
def addSessionStats (agg s : SessionStats) : SessionStats :=
  { runtime := agg.runtime + s.runtime,
    spreadTriggers := agg.spreadTriggers + s.spreadTriggers,
    orderPairs := { attempted := agg.orderPairs.attempted + s.orderPairs.attempted,
                    succeeded := agg.orderPairs.succeeded + s.orderPairs.succeeded },
    orders := { total := agg.orders.total + s.orders.total,
                accepted := agg.orders.accepted + s.orders.accepted,
                rejected := agg.orders.rejected + s.orders.rejected,
                latencies := agg.orders.latencies ++ s.orders.latencies },
    fills := { total := agg.fills.total + s.fills.total,
               partCount := agg.fills.partCount + s.fills.partCount,
               fullCount := agg.fills.fullCount + s.fills.fullCount,
               totalQty := agg.fills.totalQty + s.fills.totalQty,
               usdtQty := agg.fills.usdtQty + s.fills.usdtQty,
               usdcQty := agg.fills.usdcQty + s.fills.usdcQty,
               prices := agg.fills.prices ++ s.fills.prices },
    fastChase := { events := agg.fastChase.events + s.fastChase.events,
                   successes := agg.fastChase.successes + s.fastChase.successes,
                   retries := agg.fastChase.retries ++ s.fastChase.retries,
                   fallbackReasons :=
                     fun k => agg.fastChase.fallbackReasons k + s.fastChase.fallbackReasons k },
    errors := { gtxRejections := agg.errors.gtxRejections + s.errors.gtxRejections,
                apiErrors := agg.errors.apiErrors + s.errors.apiErrors,
                timeouts := agg.errors.timeouts + s.errors.timeouts,
                other := agg.errors.other + s.errors.other } }

/-- `StatsCalculator.calculateAggregateStats`: fold the per-session stats
into a fresh aggregate. -/
def calculateAggregateStats (sessions : List Session) : SessionStats :=
  sessions.foldl (fun agg s => addSessionStats agg (calculateSessionStats s)) {}

/-- A stored `ORDER_SUBMIT` event waiting to be matched with an
`ORDER_RESPONSE` (the `pendingSubmits` queue entries). -/
structure PendingSubmit where
  timestamp : Int := 0
  symbol : Option JVal := none
  side : Option JVal := none
  orderType : JVal := .str "LIMIT"
  quantity : Option JVal := none
  price : Option JVal := none
  deriving DecidableEq

/-- Modelled from the spec: the `OrderDetail` row record (its class
definition lives outside `src/`); §3 lists these attributes, and the
constructor's `timestamp` argument populates `submitTime` (the sort key
used by the source).  `filledQty`, `cumulativeFilled`, `accumulated` and
`fillTime` stay absent until a fill mutates the row. -/
structure OrderDetail where
  submitTime : Int := 0
  symbol : Option JVal := none
  side : Option JVal := none
  orderType : JVal := .str "LIMIT"
  quantity : Option JVal := none
  price : Option JVal := none
  status : String := "unknown"
  orderId : Option JVal := none
  latency : Option JVal := none
  pairId : Option JVal := none
  fillTime : Option Int := none
  filledQty : Option ℚ := none
  cumulativeFilled : Option ℚ := none
  accumulated : Option ℚ := none
  deriving DecidableEq

/-- Insert `x` into `l` before the first element not strictly below it
(`lt y x = false`); the helper of `stableSort`. -/
def insertSorted {α : Type} (lt : α → α → Bool) (x : α) : List α → List α
  | [] => [x]
  | y :: ys => if lt y x then y :: insertSorted lt x ys else x :: y :: ys

/-- Stable ascending sort by the strict key order `lt` (insertion sort
from the right): elements with equal keys keep their original relative
order, matching the host's stable `Array.prototype.sort` under a
`a.key - b.key` comparator. -/
def stableSort {α : Type} (lt : α → α → Bool) (l : List α) : List α :=
  l.foldr (insertSorted lt) []

/-- Build the pending-queue entry from an `ORDER_SUBMIT` event
(identical in both extraction variants). -/
def pendingOfSubmit (e : LogEvent) : PendingSubmit :=
  { timestamp := e.timestamp, symbol := e.data.symbol, side := e.data.side,
    orderType := jsOrVal e.data.orderType (.str "LIMIT"),
    quantity := e.data.qty, price := e.data.price }

/-- `Array.prototype.findIndex`: index of the earliest element satisfying
`p`, `none` when there is none (JS returns `-1`). -/
def listFindIdx {α : Type} (p : α → Bool) : List α → Option Nat
  | [] => none
  | x :: rest => if p x then some 0 else (listFindIdx p rest).map (· + 1)

/-- `pendingSubmits.findIndex(s => s.symbol === symbol)`: index of the
earliest pending submission whose symbol equals the response's symbol
(strict equality, so two absent symbols also match). -/
def findSubmit (pending : List PendingSubmit) (symbol : Option JVal) : Option Nat :=
  listFindIdx (fun s => decide (s.symbol = symbol)) pending

/-- Replace the element at index `i` by `f` of it (models mutating an
object held in a JS array); out-of-range indices leave the list
unchanged. -/
def listModify {α : Type} (l : List α) (i : Nat) (f : α → α) : List α :=
  match l, i with
  | [], _ => []
  | x :: rest, 0 => f x :: rest
  | x :: rest, n + 1 => x :: listModify rest n f

/-- The state threaded through `extractOrderDetails`: the row list, the
order-id → row correlation (the JS map holds the row object itself; the
aliasing is modelled by an index into `orders`), and the pending-submit
queue.  All three persist across sessions in this variant. -/
structure ODState where
  orders : List OrderDetail := []
  orderMap : List (JVal × Nat) := []
  pending : List PendingSubmit := []

/-- The in-place row mutation performed by the `ORDER_FILL` case of
`extractOrderDetails` on the matched order's row. -/
def odFillMutate (e : LogEvent) (d : OrderDetail) : OrderDetail :=
  let isPart := msgIncludes e.message "Partial fill"
  let d := { d with fillTime := some e.timestamp }
  let d := match e.data.last_filled with
    | some v => { d with filledQty := some (orNonzero (parseFloatJ (some v)) 0) }
    | none => d
  let d := match e.data.accumulated with
    | some v => { d with accumulated := some (orNonzero (parseFloatJ (some v)) 0) }
    | none => d
  { d with status := if isPart then "partial" else "filled" }

/-- One event step of `extractOrderDetails`. -/
def odStep (st : ODState) (e : LogEvent) : ODState :=
  if e.subcategory = some "ORDER_SUBMIT" then
    { st with pending := st.pending ++ [pendingOfSubmit e] }
  else if e.subcategory = some "ORDER_RESPONSE" then
    match truthyVal e.data.order_id with
    | none => st
    | some oid =>
        let submitIdx := findSubmit st.pending e.data.symbol
        let submitInfo := match submitIdx with
          | some i => st.pending[i]?
          | none => none
        let pending2 := match submitIdx with
          | some i => st.pending.eraseIdx i
          | none => st.pending
        let isAccepted := msgIncludes e.message "Order accepted"
        let isRejected := msgIncludes e.message "Order rejected"
        let detail : OrderDetail :=
          { submitTime := match submitInfo with
              | some si => si.timestamp
              | none => e.timestamp,
            symbol := e.data.symbol,
            side := match submitInfo with
              | some si => si.side
              | none => none,
            orderType := match submitInfo with
              | some si => si.orderType
              | none => .str "LIMIT",
            quantity := match submitInfo with
              | some si => si.quantity
              | none => none,
            price := match submitInfo with
              | some si => si.price
              | none => none,
            status := if isAccepted then "accepted"
                      else if isRejected then "rejected" else "unknown",
            orderId := some oid,
            latency := truthyVal e.data.latency_ms,
            pairId := none }
        { orders := st.orders ++ [detail],
          orderMap := alSet st.orderMap oid st.orders.length,
          pending := pending2 }
  else if e.subcategory = some "ORDER_FILL" then
    match truthyVal e.data.order_id with
    | some oid =>
        match alGet st.orderMap oid with
        | some idx => { st with orders := listModify st.orders idx (odFillMutate e) }
        | none => st
    | none => st
  else st

/-- `StatsCalculator.extractOrderDetails`: fold all sessions' events
through `odStep`, then sort the rows by submit time (a stable sort, like
the host's). -/
def extractOrderDetails (sessions : List Session) : List OrderDetail :=
  let st := sessions.foldl (fun acc sess => sess.events.foldl odStep acc) ({} : ODState)
  stableSort (fun a b => decide (a.submitTime < b.submitTime)) st.orders

/-- Base order info stored per order-id by the per-session variant
(`extractOrdersBySession`), read back by later fill events. -/
structure BaseOrder where
  submitTime : Int := 0
  symbol : Option JVal := none
  side : Option JVal := none
  orderType : JVal := .str "LIMIT"
  quantity : Option JVal := none
  price : Option JVal := none
  latency : Option JVal := none
  status : String := "unknown"
  deriving DecidableEq

/-- The per-session state of `extractOrdersBySession` (reset for every
session). -/
structure OBSState where
  rows : List OrderDetail := []
  orderMap : List (JVal × BaseOrder) := []
  pending : List PendingSubmit := []

/-- The dedicated fill row appended by the `ORDER_FILL` case of
`extractOrdersBySession`, built from the event and the matched base
order (when any). -/
def obsFillRow (e : LogEvent) (base : Option BaseOrder) : OrderDetail :=
  let isPart := msgIncludes e.message "Partial fill"
  { submitTime := match base with
      | some b => b.submitTime
      | none => e.timestamp,
    symbol := jsOr e.data.symbol (match base with
      | some b => b.symbol
      | none => none),
    side := match base with
      | some b => b.side
      | none => none,
    orderType := match base with
      | some b => b.orderType
      | none => .str "LIMIT",
    quantity := match base with
      | some b => b.quantity
      | none => none,
    price := jsOr e.data.last_price (jsOr e.data.price (match base with
      | some b => b.price
      | none => none)),
    status := if isPart then "partial" else "filled",
    orderId := e.data.order_id,
    latency := match base with
      | some b => b.latency
      | none => none,
    pairId := none,
    fillTime := some e.timestamp,
    filledQty := some (orNonzero (parseFloatJ e.data.last_filled) 0),
    cumulativeFilled := some (orNonzero (parseFloatJ e.data.cumulative_filled)
      (orNonzero (parseFloatJ e.data.total_filled) 0)),
    accumulated := some (orNonzero (parseFloatJ e.data.accumulated) 0) }

/-- One event step of `extractOrdersBySession`. -/
def obsStep (st : OBSState) (e : LogEvent) : OBSState :=
  if e.subcategory = some "ORDER_SUBMIT" then
    { st with pending := st.pending ++ [pendingOfSubmit e] }
  else if e.subcategory = some "ORDER_RESPONSE" then
    match truthyVal e.data.order_id with
    | none => st
    | some oid =>
        let submitIdx := findSubmit st.pending e.data.symbol
        let submitInfo := match submitIdx with
          | some i => st.pending[i]?
          | none => none
        let pending2 := match submitIdx with
          | some i => st.pending.eraseIdx i
          | none => st.pending
        let isAccepted := msgIncludes e.message "Order accepted"
        let isRejected := msgIncludes e.message "Order rejected"
        let base : BaseOrder :=
          { submitTime := match submitInfo with
              | some si => si.timestamp
              | none => e.timestamp,
            symbol := e.data.symbol,
            side := match submitInfo with
              | some si => si.side
              | none => none,
            orderType := match submitInfo with
              | some si => si.orderType
              | none => .str "LIMIT",
            quantity := match submitInfo with
              | some si => si.quantity
              | none => none,
            price := match submitInfo with
              | some si => si.price
              | none => none,
            latency := truthyVal e.data.latency_ms,
            status := if isAccepted then "accepted"
                      else if isRejected then "rejected" else "unknown" }
        let detail : OrderDetail :=
          { submitTime := base.submitTime,
            symbol := e.data.symbol,
            side := base.side,
            orderType := base.orderType,
            quantity := base.quantity,
            price := base.price,
            status := base.status,
            orderId := some oid,
            latency := truthyVal e.data.latency_ms,
            pairId := none }
        { rows := st.rows ++ [detail],
          orderMap := alSet st.orderMap oid base,
          pending := pending2 }
  else if e.subcategory = some "ORDER_FILL" then
    let base := match e.data.order_id with
      | some v => alGet st.orderMap v
      | none => none
    let rows2 := st.rows ++ [obsFillRow e base]
    let rows3 := match listFindIdx (fun r =>
        decide (r.orderId = e.data.order_id) && decide (r.status = "accepted")) rows2 with
      | some i => rows2.eraseIdx i
      | none => rows2
    { st with rows := rows3 }
  else if e.subcategory = some "ORDER_STATE" then
    match truthyVal e.data.order_id with
    | some oid =>
        if alContains st.orderMap oid then
          if msgIncludes e.message "GTX rejected" then
            let om := alUpdate st.orderMap oid (fun b => { b with status := "rejected" })
            let rows2 := match listFindIdx (fun r =>
                decide (r.orderId = some oid) && decide (r.status = "accepted")) st.rows with
              | some i => listModify st.rows i (fun r => { r with status := "rejected" })
              | none => st.rows
            { st with orderMap := om, rows := rows2 }
          else if msgIncludes e.message "canceled" then
            let om := alUpdate st.orderMap oid (fun b => { b with status := "canceled" })
            let rows2 := match listFindIdx (fun r =>
                decide (r.orderId = some oid) && decide (r.status = "accepted")) st.rows with
              | some i => listModify st.rows i (fun r => { r with status := "canceled" })
              | none => st.rows
            { st with orderMap := om, rows := rows2 }
          else st
        else st
    | none => st
  else if e.subcategory = some "PAIR_LINK" then
    { st with rows := st.rows.map (fun r =>
        if r.orderId = e.data.usdt_order || r.orderId = e.data.usdc_order then
          { r with pairId := e.data.pair_id }
        else r) }
  else st

/-- Sort key of the per-session row list: fill time when a fill was
observed, submit time otherwise. -/
def rowTime (r : OrderDetail) : Int :=
  match r.fillTime with
  | some t => t
  | none => r.submitTime

/-- `StatsCalculator.extractOrdersBySession`, reduced to the row lists:
replay each session's events through `obsStep` with fresh state and sort
the rows by fill-else-submit time (the session/stat summary attached by
the source is a projection of `calculateSessionStats` and session
metadata, not modelled here). -/
def extractOrdersBySession (sessions : List Session) : List (List OrderDetail) :=
  sessions.map (fun sess =>
    stableSort (fun a b => decide (rowTime a < rowTime b))
      ((sess.events.foldl obsStep ({} : OBSState)).rows))

/-- Modelled from the spec: the field-wise sum of two stats records —
"simple field-wise summation, except sample lists (latencies, prices,
retries) which are concatenated, and fallback-reason mappings which are
merged by summing per-key counts." -/
def specSum (a b : SessionStats) : SessionStats :=
  { runtime := a.runtime + b.runtime,
    spreadTriggers := a.spreadTriggers + b.spreadTriggers,
    orderPairs := { attempted := a.orderPairs.attempted + b.orderPairs.attempted,
                    succeeded := a.orderPairs.succeeded + b.orderPairs.succeeded },
    orders := { total := a.orders.total + b.orders.total,
                accepted := a.orders.accepted + b.orders.accepted,
                rejected := a.orders.rejected + b.orders.rejected,
                latencies := a.orders.latencies ++ b.orders.latencies },
    fills := { total := a.fills.total + b.fills.total,
               partCount := a.fills.partCount + b.fills.partCount,
               fullCount := a.fills.fullCount + b.fills.fullCount,
               totalQty := a.fills.totalQty + b.fills.totalQty,
               usdtQty := a.fills.usdtQty + b.fills.usdtQty,
               usdcQty := a.fills.usdcQty + b.fills.usdcQty,
               prices := a.fills.prices ++ b.fills.prices },
    fastChase := { events := a.fastChase.events + b.fastChase.events,
                   successes := a.fastChase.successes + b.fastChase.successes,
                   retries := a.fastChase.retries ++ b.fastChase.retries,
                   fallbackReasons :=
                     fun k => a.fastChase.fallbackReasons k + b.fastChase.fallbackReasons k },
    errors := { gtxRejections := a.errors.gtxRejections + b.errors.gtxRejections,
                apiErrors := a.errors.apiErrors + b.errors.apiErrors,
                timeouts := a.errors.timeouts + b.errors.timeouts,
                other := a.errors.other + b.errors.other } }

/-- The subcategories handled by dedicated `switch` cases of
`processEvent`; every other subcategory (including an absent one) falls
into the `default` case. -/
def handledSubcats : List (Option String) :=
  [some "SPREAD_MET", some "ORDER_SUBMIT", some "ORDER_RESPONSE", some "ORDER_FILL",
   some "PARALLEL_ORDER", some "PAIR_LINK", some "FAST_CHASE", some "BALANCE",
   some "ORDER_STATE", some "ORDER_CANCEL", some "ORDER_TIMEOUT"]

/-- Spec claim helper: `v` parses (JS `parseFloat`) to a nonzero number. -/
def parsesNonzero (v : Option JVal) : Bool :=
  match parseFloatJ v with
  | some q => decide (q ≠ 0)
  | none => false

/-- Spec claim helper: the parsed numeric value of `v` (0 when `NaN`). -/
def parsedVal (v : Option JVal) : ℚ :=
  match parseFloatJ v with
  | some q => q
  | none => 0

/-- The fill-quantity selection rule as the spec words it: the
`last_filled` field, falling back to `filled` when `last_filled` is
absent or does not parse to a nonzero number, then to `qty`, and finally
to 0. -/
def specFillQty (d : EventData) : ℚ :=
  if parsesNonzero d.last_filled then parsedVal d.last_filled
  else if parsesNonzero d.filled then parsedVal d.filled
  else if parsesNonzero d.qty then parsedVal d.qty
  else 0

/-- Acceptance classification of an `ORDER_RESPONSE`: by message
substring, or — for an order matched in the correlation table — by an
explicit payload status field. -/
def respAccepted (e : LogEvent) (matched : Bool) : Bool :=
  msgIncludes e.message "Order accepted"
    || (matched && (decide (e.data.status = some (.str "accepted"))
                    || decide (e.data.status = some (.str "NEW"))))

/-- Rejection classification of an `ORDER_RESPONSE`: by message
substring, when the acceptance classification did not fire. -/
def respRejected (e : LogEvent) (matched : Bool) : Bool :=
  !respAccepted e matched && msgIncludes e.message "Order rejected"

/-! ### Concrete inputs used by the claim theorems -/

/-- C1: submit the USDT leg (order `o1`, pair `p1`). -/
def c1Sub1 : LogEvent :=
  { category := some "AUDIT", subcategory := some "ORDER_SUBMIT",
    data := { order_id := some (JVal.str "o1"), symbol := some (JVal.str "ETHUSDT"),
              pair_id := some (JVal.str "p1") } }

/-- C1: submit the USDC leg (order `o2`, pair `p1`). -/
def c1Sub2 : LogEvent :=
  { category := some "AUDIT", subcategory := some "ORDER_SUBMIT",
    data := { order_id := some (JVal.str "o2"), symbol := some (JVal.str "ETHUSDC"),
              pair_id := some (JVal.str "p1") } }

/-- C1: link the pair `p1`. -/
def c1Link : LogEvent :=
  { category := some "AUDIT", subcategory := some "PAIR_LINK",
    data := { pair_id := some (JVal.str "p1") } }

/-- C1: fill of the USDT leg. -/
def c1Fill1 : LogEvent :=
  { category := some "AUDIT", subcategory := some "ORDER_FILL",
    message := some "USDT order filled", data := { order_id := some (JVal.str "o1") } }

/-- C1: fill of the USDC leg. -/
def c1Fill2 : LogEvent :=
  { category := some "AUDIT", subcategory := some "ORDER_FILL",
    message := some "USDC order filled", data := { order_id := some (JVal.str "o2") } }

/-- C1: the session where both legs of pair `p1` fill. -/
def c1Pair : Session := { events := [c1Sub1, c1Sub2, c1Link, c1Fill1, c1Fill2] }

/-- C1: the session where only the USDT leg fills. -/
def c1Half : Session := { events := [c1Sub1, c1Sub2, c1Link, c1Fill1] }

/-- C3 witness input: an accepted `ORDER_RESPONSE` carrying an order-id. -/
def c3Event : LogEvent :=
  { category := some "AUDIT", subcategory := some "ORDER_RESPONSE",
    message := some "Order accepted", data := { order_id := some (JVal.str "w3") } }

/-- C4 counterexample input: an ERROR-level event with a timeout message
but no category — the reducer's early return skips it entirely. -/
def c4NoCat : LogEvent :=
  { level := "ERROR", subcategory := some "RISK_CHECK",
    message := some "request timeout after 5000ms" }

/-- C4 witness input: the same event but carrying a category. -/
def c4Err : LogEvent :=
  { level := "ERROR", category := some "AUDIT", subcategory := some "RISK_CHECK",
    message := some "request timeout after 5000ms" }

/-- C5 witness state: two pending submissions for symbol `A`
(timestamps 1 and 3) around one for symbol `B`. -/
def c5State : ODState :=
  { pending :=
      [ { timestamp := 1, symbol := some (JVal.str "A"), side := some (JVal.str "BUY"),
          orderType := JVal.str "LIMIT", quantity := some (JVal.num 5),
          price := some (JVal.num 100) },
        { timestamp := 2, symbol := some (JVal.str "B"), side := some (JVal.str "SELL"),
          orderType := JVal.str "LIMIT", quantity := some (JVal.num 6),
          price := some (JVal.num 200) },
        { timestamp := 3, symbol := some (JVal.str "A"), side := some (JVal.str "SELL"),
          orderType := JVal.str "LIMIT", quantity := some (JVal.num 7),
          price := some (JVal.num 300) } ] }

/-- C5 witness input: an `ORDER_RESPONSE` for symbol `A`. -/
def c5Event : LogEvent :=
  { timestamp := 9, category := some "AUDIT", subcategory := some "ORDER_RESPONSE",
    message := some "Order accepted",
    data := { order_id := some (JVal.str "o5"), symbol := some (JVal.str "A") } }

/-- C6 witness input: an `ORDER_FILL` whose order-id has no match. -/
def c6Fill : LogEvent :=
  { category := some "AUDIT", subcategory := some "ORDER_FILL",
    message := some "USDT order filled",
    data := { order_id := some (JVal.str "ghost"), last_filled := some (JVal.num 2),
              price := some (JVal.num 50) } }

/-- C7: a GTX-marked `ORDER_RESPONSE` rejection (no prior submit). -/
def c7Resp : LogEvent :=
  { category := some "AUDIT", subcategory := some "ORDER_RESPONSE",
    message := some "Order rejected | reason=GTX would match",
    data := { order_id := some (JVal.str "o7") } }

/-- C7: the corresponding `ORDER_STATE` GTX-rejection event. -/
def c7State : LogEvent :=
  { category := some "AUDIT", subcategory := some "ORDER_STATE",
    message := some "Order expired (GTX rejected)" }

/-- C7: a session containing both events for the same logical rejection. -/
def c7Session : Session := { events := [c7Resp, c7State] }

/-- C8 witness input: `last_filled` parses to zero, `filled` to 3. -/
def c8Fill : LogEvent :=
  { category := some "AUDIT", subcategory := some "ORDER_FILL",
    data := { last_filled := some (JVal.num 0), filled := some (JVal.num 3),
              qty := some (JVal.num 7) } }

/-- C9: first accepted response for order `X`. -/
def c9Acc1 : LogEvent :=
  { timestamp := 1, category := some "AUDIT", subcategory := some "ORDER_RESPONSE",
    message := some "Order accepted", data := { order_id := some (JVal.str "X") } }

/-- C9: second accepted response for the same order `X`. -/
def c9Acc2 : LogEvent :=
  { timestamp := 2, category := some "AUDIT", subcategory := some "ORDER_RESPONSE",
    message := some "Order accepted", data := { order_id := some (JVal.str "X") } }

/-- C9: a full fill of order `X`. -/
def c9Fill : LogEvent :=
  { timestamp := 3, category := some "AUDIT", subcategory := some "ORDER_FILL",
    message := some "USDT order filled", data := { order_id := some (JVal.str "X") } }

/-- C9: the session with two accepted responses and one fill for `X`. -/
def c9Session : Session := { events := [c9Acc1, c9Acc2, c9Fill] }

/-- C10 witness input: a plain full fill. -/
def c10Fill : LogEvent :=
  { category := some "AUDIT", subcategory := some "ORDER_FILL",
    message := some "USDT order filled", data := { qty := some (JVal.num 1) } }

/-- C10 witness input: a non-fill event. -/
def c10Other : LogEvent :=
  { category := some "AUDIT", subcategory := some "BALANCE",
    message := some "balance snapshot" }

/-- C9 witness input: an existing accepted row for order `X`. -/
def c9Row : OrderDetail :=
  { submitTime := 1, status := "accepted", orderId := some (JVal.str "X") }

/-- C9 witness input: a per-session extraction state holding that row. -/
def c9OBS : OBSState := { rows := [c9Row] }

/-! ### Association-list lemmas -/

section ALemmas

variable {V : Type}

theorem alUpdate_keys (m : List (JVal × V)) (k : JVal) (f : V → V) :
    (alUpdate m k f).map Prod.fst = m.map Prod.fst := by
  induction m with
  | nil => rfl
  | cons kv rest ih =>
      obtain ⟨k2, v⟩ := kv
      by_cases h : k2 = k <;> simp [alUpdate, h, ih]

theorem alContains_false_iff (m : List (JVal × V)) (k : JVal) :
    alContains m k = false ↔ k ∉ m.map Prod.fst := by
  induction m with
  | nil => simp [alContains]
  | cons kv rest ih =>
      obtain ⟨k2, v⟩ := kv
      constructor
      · intro h hmem
        rw [List.map_cons] at hmem
        have h12 : ¬(k2 = k) ∧ alContains rest k = false := by simpa [alContains] using h
        rcases List.mem_cons.mp hmem with h3 | h3
        · exact h12.1 h3.symm
        · exact (ih.mp h12.2) h3
      · intro hmem
        rw [List.map_cons] at hmem
        have h1 : ¬(k2 = k) := fun hk => hmem (hk ▸ List.mem_cons_self _ _)
        have h2 : k ∉ rest.map Prod.fst := fun hk => hmem (List.mem_cons_of_mem _ hk)
        simp [alContains, h1, ih.mpr h2]

theorem alSet_keys (m : List (JVal × V)) (k : JVal) (v : V) :
    (alSet m k v).map Prod.fst =
      if alContains m k = true then m.map Prod.fst else m.map Prod.fst ++ [k] := by
  induction m with
  | nil => simp [alSet, alContains]
  | cons kv rest ih =>
      obtain ⟨k2, v2⟩ := kv
      by_cases h : k2 = k
      · simp [alSet, alContains, h]
      · simp only [alSet, alContains, if_neg h, List.map_cons, ih]
        by_cases h2 : alContains rest k = true <;> simp [h2, h]

theorem nodup_alSet (m : List (JVal × V)) (k : JVal) (v : V)
    (h : (m.map Prod.fst).Nodup) : ((alSet m k v).map Prod.fst).Nodup := by
  rw [alSet_keys]
  by_cases hc : alContains m k = true
  · simpa [hc] using h
  · have hk : k ∉ m.map Prod.fst := (alContains_false_iff m k).1 (by simpa using hc)
    simp [hc, List.nodup_append, h, hk]

theorem nodup_alUpdate (m : List (JVal × V)) (k : JVal) (f : V → V)
    (h : (m.map Prod.fst).Nodup) : ((alUpdate m k f).map Prod.fst).Nodup := by
  rw [alUpdate_keys]; exact h

theorem alGet_alUpdate (m : List (JVal × V)) (k : JVal) (f : V → V) :
    alGet (alUpdate m k f) k = (alGet m k).map f := by
  induction m with
  | nil => rfl
  | cons kv rest ih =>
      obtain ⟨k2, v⟩ := kv
      by_cases h : k2 = k <;> simp [alUpdate, alGet, h, ih]

end ALemmas

/-! ### Per-handler preservation lemmas for the statistics reducer -/

theorem handleOrderSubmit_orderPairs (e : LogEvent) (st : RState) :
    (handleOrderSubmit e st).stats.orderPairs = st.stats.orderPairs := by
  unfold handleOrderSubmit
  dsimp only
  repeat' split
  all_goals rfl

theorem handleOrderSubmit_fills (e : LogEvent) (st : RState) :
    (handleOrderSubmit e st).stats.fills = st.stats.fills := by
  unfold handleOrderSubmit
  dsimp only
  repeat' split
  all_goals rfl

theorem handleOrderSubmit_pairMap (e : LogEvent) (st : RState) :
    (handleOrderSubmit e st).pairMap = st.pairMap := by
  unfold handleOrderSubmit
  dsimp only
  repeat' split
  all_goals rfl

theorem respLatency_orderMap (e : LogEvent) (st : RState) :
    (respLatency e st).orderMap = st.orderMap := by
  unfold respLatency
  split <;> rfl

theorem respLatency_pairMap (e : LogEvent) (st : RState) :
    (respLatency e st).pairMap = st.pairMap := by
  unfold respLatency
  split <;> rfl

theorem respLatency_orderPairs (e : LogEvent) (st : RState) :
    (respLatency e st).stats.orderPairs = st.stats.orderPairs := by
  unfold respLatency
  split <;> rfl

theorem respLatency_fills (e : LogEvent) (st : RState) :
    (respLatency e st).stats.fills = st.stats.fills := by
  unfold respLatency
  split <;> rfl

theorem respLatency_accepted (e : LogEvent) (st : RState) :
    (respLatency e st).stats.orders.accepted = st.stats.orders.accepted := by
  unfold respLatency
  split <;> rfl

theorem respLatency_rejected (e : LogEvent) (st : RState) :
    (respLatency e st).stats.orders.rejected = st.stats.orders.rejected := by
  unfold respLatency
  split <;> rfl

theorem respLatency_errors (e : LogEvent) (st : RState) :
    (respLatency e st).stats.errors = st.stats.errors := by
  unfold respLatency
  split <;> rfl

theorem handleOrderResponse_orderPairs (e : LogEvent) (st : RState) :
    (handleOrderResponse e st).stats.orderPairs = st.stats.orderPairs := by
  unfold handleOrderResponse
  dsimp only
  repeat' split
  all_goals simp [respLatency_orderPairs]

theorem handleOrderResponse_fills (e : LogEvent) (st : RState) :
    (handleOrderResponse e st).stats.fills = st.stats.fills := by
  unfold handleOrderResponse
  dsimp only
  repeat' split
  all_goals simp [respLatency_fills]

theorem handleOrderResponse_pairMap (e : LogEvent) (st : RState) :
    (handleOrderResponse e st).pairMap = st.pairMap := by
  unfold handleOrderResponse
  dsimp only
  repeat' split
  all_goals simp [respLatency_pairMap]

theorem orderFillCorrelate_stats (e : LogEvent) (st : RState) :
    (orderFillCorrelate e st).stats = st.stats := by
  unfold orderFillCorrelate
  dsimp only
  repeat' split
  all_goals rfl

theorem handleOrderFill_stats (e : LogEvent) (st : RState) :
    (handleOrderFill e st).stats = orderFillStats e st.stats := by
  unfold handleOrderFill
  rw [orderFillCorrelate_stats]

theorem handleOrderFill_orderPairs (e : LogEvent) (st : RState) :
    (handleOrderFill e st).stats.orderPairs = st.stats.orderPairs := by
  rw [handleOrderFill_stats]; rfl

theorem handleOrderFill_fills (e : LogEvent) (st : RState) :
    (handleOrderFill e st).stats.fills = fillsUpdate e st.stats.fills := by
  rw [handleOrderFill_stats]; rfl

theorem processFastChaseEvent_orderPairs (e : LogEvent) (s : SessionStats) :
    (processFastChaseEvent e s).orderPairs = s.orderPairs := by
  unfold processFastChaseEvent
  dsimp only
  repeat' split
  all_goals rfl

theorem processFastChaseEvent_fills (e : LogEvent) (s : SessionStats) :
    (processFastChaseEvent e s).fills = s.fills := by
  unfold processFastChaseEvent
  dsimp only
  repeat' split
  all_goals rfl

theorem handlePairEnsure_stats (e : LogEvent) (st : RState) :
    (handlePairEnsure e st).stats = st.stats := by
  unfold handlePairEnsure
  repeat' split
  all_goals rfl

theorem handleOrderState_orderPairs (e : LogEvent) (st : RState) :
    (handleOrderState e st).stats.orderPairs = st.stats.orderPairs := by
  unfold handleOrderState
  dsimp only
  repeat' split
  all_goals rfl

theorem handleOrderState_fills (e : LogEvent) (st : RState) :
    (handleOrderState e st).stats.fills = st.stats.fills := by
  unfold handleOrderState
  dsimp only
  repeat' split
  all_goals rfl

theorem handleOrderState_pairMap (e : LogEvent) (st : RState) :
    (handleOrderState e st).pairMap = st.pairMap := by
  unfold handleOrderState
  dsimp only
  repeat' split
  all_goals rfl

theorem handleDefault_orderPairs (e : LogEvent) (st : RState) :
    (handleDefault e st).stats.orderPairs = st.stats.orderPairs := by
  unfold handleDefault
  dsimp only
  repeat' split
  all_goals rfl

theorem handleDefault_fills (e : LogEvent) (st : RState) :
    (handleDefault e st).stats.fills = st.stats.fills := by
  unfold handleDefault
  dsimp only
  repeat' split
  all_goals rfl

theorem handleDefault_pairMap (e : LogEvent) (st : RState) :
    (handleDefault e st).pairMap = st.pairMap := by
  unfold handleDefault
  dsimp only
  repeat' split
  all_goals rfl

/-- `processEvent` always lands in one of its dispatch branches. -/
theorem processEvent_branches (e : LogEvent) (st : RState) :
    processEvent e st = st
    ∨ processEvent e st = { st with stats.spreadTriggers := st.stats.spreadTriggers + 1 }
    ∨ processEvent e st = handleOrderSubmit e st
    ∨ processEvent e st = handleOrderResponse e st
    ∨ processEvent e st = handleOrderFill e st
    ∨ processEvent e st = handlePairEnsure e st
    ∨ processEvent e st = { st with stats := processFastChaseEvent e st.stats }
    ∨ processEvent e st = handleOrderState e st
    ∨ processEvent e st = { st with stats.errors.timeouts := st.stats.errors.timeouts + 1 }
    ∨ processEvent e st = handleDefault e st := by
  rw [processEvent]
  by_cases h0 : catTruthy e.category = true
  case neg => rw [if_neg h0]; exact Or.inl rfl
  rw [if_pos h0]
  by_cases h1 : e.subcategory = some "SPREAD_MET"
  · rw [if_pos h1]; exact Or.inr (Or.inl rfl)
  rw [if_neg h1]
  by_cases h2 : e.subcategory = some "ORDER_SUBMIT"
  · rw [if_pos h2]; exact Or.inr (Or.inr (Or.inl rfl))
  rw [if_neg h2]
  by_cases h3 : e.subcategory = some "ORDER_RESPONSE"
  · rw [if_pos h3]; exact Or.inr (Or.inr (Or.inr (Or.inl rfl)))
  rw [if_neg h3]
  by_cases h4 : e.subcategory = some "ORDER_FILL"
  · rw [if_pos h4]; exact Or.inr (Or.inr (Or.inr (Or.inr (Or.inl rfl))))
  rw [if_neg h4]
  by_cases h5 : e.subcategory = some "PARALLEL_ORDER"
  · rw [if_pos h5]; exact Or.inr (Or.inr (Or.inr (Or.inr (Or.inr (Or.inl rfl)))))
  rw [if_neg h5]
  by_cases h6 : e.subcategory = some "PAIR_LINK"
  · rw [if_pos h6]; exact Or.inr (Or.inr (Or.inr (Or.inr (Or.inr (Or.inl rfl)))))
  rw [if_neg h6]
  by_cases h7 : e.subcategory = some "FAST_CHASE"
  · rw [if_pos h7]
    exact Or.inr (Or.inr (Or.inr (Or.inr (Or.inr (Or.inr (Or.inl rfl))))))
  rw [if_neg h7]
  by_cases h8 : e.subcategory = some "BALANCE"
  · rw [if_pos h8]; exact Or.inl rfl
  rw [if_neg h8]
  by_cases h9 : e.subcategory = some "ORDER_STATE"
  · rw [if_pos h9]
    exact Or.inr (Or.inr (Or.inr (Or.inr (Or.inr (Or.inr (Or.inr (Or.inl rfl)))))))
  rw [if_neg h9]
  by_cases h10 : e.subcategory = some "ORDER_CANCEL"
  · rw [if_pos h10]; exact Or.inl rfl
  rw [if_neg h10]
  by_cases h11 : e.subcategory = some "ORDER_TIMEOUT"
  · rw [if_pos h11]
    exact Or.inr (Or.inr (Or.inr (Or.inr (Or.inr (Or.inr (Or.inr (Or.inr (Or.inl rfl))))))))
  rw [if_neg h11]
  exact Or.inr (Or.inr (Or.inr (Or.inr (Or.inr (Or.inr (Or.inr (Or.inr (Or.inr rfl))))))))

theorem processEvent_orderPairs (e : LogEvent) (st : RState) :
    (processEvent e st).stats.orderPairs = st.stats.orderPairs := by
  rcases processEvent_branches e st with h|h|h|h|h|h|h|h|h|h <;> rw [h] <;>
    simp [handleOrderSubmit_orderPairs, handleOrderResponse_orderPairs,
      handleOrderFill_orderPairs, handlePairEnsure_stats, handleOrderState_orderPairs,
      handleDefault_orderPairs, processFastChaseEvent_orderPairs]

/-! ### Pair-table key distinctness -/

theorem orderFillCorrelate_pairMap_nodup (e : LogEvent) (st : RState)
    (h : (st.pairMap.map Prod.fst).Nodup) :
    ((orderFillCorrelate e st).pairMap.map Prod.fst).Nodup := by
  unfold orderFillCorrelate
  dsimp only
  repeat' split
  all_goals try dsimp only
  all_goals
    first
      | exact h
      | exact nodup_alUpdate _ _ _ h
      | exact nodup_alSet _ _ _ h
      | exact nodup_alUpdate _ _ _ (nodup_alSet _ _ _ h)

theorem handleOrderFill_pairMap_nodup (e : LogEvent) (st : RState)
    (h : (st.pairMap.map Prod.fst).Nodup) :
    ((handleOrderFill e st).pairMap.map Prod.fst).Nodup := by
  unfold handleOrderFill
  exact orderFillCorrelate_pairMap_nodup e _ h

theorem handlePairEnsure_pairMap_nodup (e : LogEvent) (st : RState)
    (h : (st.pairMap.map Prod.fst).Nodup) :
    ((handlePairEnsure e st).pairMap.map Prod.fst).Nodup := by
  unfold handlePairEnsure
  repeat' split
  all_goals first
    | exact h
    | exact nodup_alSet _ _ _ h

theorem processEvent_pairMap_nodup (e : LogEvent) (st : RState)
    (h : (st.pairMap.map Prod.fst).Nodup) :
    ((processEvent e st).pairMap.map Prod.fst).Nodup := by
  rcases processEvent_branches e st with h2|h2|h2|h2|h2|h2|h2|h2|h2|h2 <;> rw [h2]
  all_goals
    first
      | exact h
      | (rw [handleOrderSubmit_pairMap]; exact h)
      | (rw [handleOrderResponse_pairMap]; exact h)
      | (rw [handleOrderState_pairMap]; exact h)
      | (rw [handleDefault_pairMap]; exact h)
      | exact handleOrderFill_pairMap_nodup e st h
      | exact handlePairEnsure_pairMap_nodup e st h

/-! ### The final pair loop of `calculateSessionStats` -/

theorem pairLoopStep_fills (s : SessionStats) (kv : JVal × PairInfo) :
    (pairLoopStep s kv).fills = s.fills := by
  unfold pairLoopStep
  dsimp only
  split <;> rfl

theorem pairLoopStep_attempted (s : SessionStats) (kv : JVal × PairInfo) :
    (pairLoopStep s kv).orderPairs.attempted = s.orderPairs.attempted + 1 := by
  unfold pairLoopStep
  dsimp only
  split <;> rfl

theorem pairLoopStep_succeeded (s : SessionStats) (kv : JVal × PairInfo) :
    (pairLoopStep s kv).orderPairs.succeeded =
      s.orderPairs.succeeded + (if kv.2.usdtFilled && kv.2.usdcFilled then 1 else 0) := by
  unfold pairLoopStep
  dsimp only
  split <;> simp_all

theorem pairFold_fills (l : List (JVal × PairInfo)) (acc : SessionStats) :
    (l.foldl pairLoopStep acc).fills = acc.fills := by
  induction l generalizing acc with
  | nil => rfl
  | cons kv rest ih => rw [List.foldl_cons, ih, pairLoopStep_fills]

theorem pairFold_attempted (l : List (JVal × PairInfo)) (acc : SessionStats) :
    (l.foldl pairLoopStep acc).orderPairs.attempted =
      acc.orderPairs.attempted + l.length := by
  induction l generalizing acc with
  | nil => rfl
  | cons kv rest ih =>
      rw [List.foldl_cons, ih, pairLoopStep_attempted, List.length_cons]
      omega

theorem pairFold_succeeded (l : List (JVal × PairInfo)) (acc : SessionStats) :
    (l.foldl pairLoopStep acc).orderPairs.succeeded =
      acc.orderPairs.succeeded
        + l.countP (fun kv => kv.2.usdtFilled && kv.2.usdcFilled) := by
  induction l generalizing acc with
  | nil => simp
  | cons kv rest ih =>
      rw [List.foldl_cons, ih, pairLoopStep_succeeded, List.countP_cons]
      split <;> simp_all <;> omega

/-! ### Facts about the event fold of a session -/

theorem eventsFold_orderPairs (events : List LogEvent) (st0 : RState) :
    ((events.foldl (fun acc e => processEvent e acc) st0).stats.orderPairs) =
      st0.stats.orderPairs := by
  induction events generalizing st0 with
  | nil => rfl
  | cons e rest ih => rw [List.foldl_cons, ih, processEvent_orderPairs]

theorem eventsFold_pairMap_nodup (events : List LogEvent) (st0 : RState)
    (h : (st0.pairMap.map Prod.fst).Nodup) :
    (((events.foldl (fun acc e => processEvent e acc) st0).pairMap.map Prod.fst)).Nodup := by
  induction events generalizing st0 with
  | nil => exact h
  | cons e rest ih =>
      rw [List.foldl_cons]
      exact ih _ (processEvent_pairMap_nodup e st0 h)

/-! ### The fills block across `processEvent` -/

theorem fillsUpdate_total (e : LogEvent) (f : FillsStats) :
    (fillsUpdate e f).total = f.total + 1 := by
  unfold fillsUpdate
  dsimp only
  repeat' split
  all_goals rfl

theorem fillsUpdate_part_full (e : LogEvent) (f : FillsStats) :
    (fillsUpdate e f).partCount + (fillsUpdate e f).fullCount
      = f.partCount + f.fullCount + 1 := by
  unfold fillsUpdate
  dsimp only
  repeat' split
  all_goals (dsimp only; omega)

/-- Per-event behaviour of the fills block: only a categorised
`ORDER_FILL` event touches it, and then exactly through `fillsUpdate`. -/
theorem processEvent_fills (e : LogEvent) (st : RState) :
    (processEvent e st).stats.fills =
      if catTruthy e.category = true ∧ e.subcategory = some "ORDER_FILL" then
        fillsUpdate e st.stats.fills
      else st.stats.fills := by
  rw [processEvent]
  by_cases h0 : catTruthy e.category = true
  case neg => rw [if_neg h0, if_neg (fun hh => h0 hh.1)]
  rw [if_pos h0]
  by_cases h1 : e.subcategory = some "SPREAD_MET"
  · rw [if_pos h1, if_neg (by simp [h1])]
  rw [if_neg h1]
  by_cases h2 : e.subcategory = some "ORDER_SUBMIT"
  · rw [if_pos h2, if_neg (by simp [h2])]; exact handleOrderSubmit_fills e st
  rw [if_neg h2]
  by_cases h3 : e.subcategory = some "ORDER_RESPONSE"
  · rw [if_pos h3, if_neg (by simp [h3])]; exact handleOrderResponse_fills e st
  rw [if_neg h3]
  by_cases h4 : e.subcategory = some "ORDER_FILL"
  · rw [if_pos h4, if_pos ⟨h0, h4⟩]; exact handleOrderFill_fills e st
  rw [if_neg h4, if_neg (show ¬(catTruthy e.category = true
    ∧ e.subcategory = some "ORDER_FILL") from fun hh => h4 hh.2)]
  by_cases h5 : e.subcategory = some "PARALLEL_ORDER"
  · rw [if_pos h5, handlePairEnsure_stats]
  rw [if_neg h5]
  by_cases h6 : e.subcategory = some "PAIR_LINK"
  · rw [if_pos h6, handlePairEnsure_stats]
  rw [if_neg h6]
  by_cases h7 : e.subcategory = some "FAST_CHASE"
  · rw [if_pos h7]; exact processFastChaseEvent_fills e st.stats
  rw [if_neg h7]
  by_cases h8 : e.subcategory = some "BALANCE"
  · rw [if_pos h8]
  rw [if_neg h8]
  by_cases h9 : e.subcategory = some "ORDER_STATE"
  · rw [if_pos h9]; exact handleOrderState_fills e st
  rw [if_neg h9]
  by_cases h10 : e.subcategory = some "ORDER_CANCEL"
  · rw [if_pos h10]
  rw [if_neg h10]
  by_cases h11 : e.subcategory = some "ORDER_TIMEOUT"
  · rw [if_pos h11]
  rw [if_neg h11]
  exact handleDefault_fills e st

theorem eventsFold_fills_inv (events : List LogEvent) (st0 : RState)
    (h : st0.stats.fills.total = st0.stats.fills.partCount + st0.stats.fills.fullCount) :
    (events.foldl (fun acc e => processEvent e acc) st0).stats.fills.total =
      (events.foldl (fun acc e => processEvent e acc) st0).stats.fills.partCount
        + (events.foldl (fun acc e => processEvent e acc) st0).stats.fills.fullCount := by
  induction events generalizing st0 with
  | nil => exact h
  | cons e rest ih =>
      rw [List.foldl_cons]
      refine ih _ ?_
      rw [processEvent_fills]
      split
      · rw [fillsUpdate_total, fillsUpdate_part_full, h]
      · exact h

/-! ### Claim theorems -/

/-- C1: after the full event pass of `calculateSessionStats`,
`orderPairs.attempted` equals the number of (distinct) pair-ids
registered in the pair table and `orderPairs.succeeded` counts exactly
the pairs with both currency legs marked filled; in the concrete session
with one `ORDER_FILL` for `ETHUSDT` and one for `ETHUSDC`, both orders
carrying pair-id `p1` (linked via `PAIR_LINK`), `attempted = 1` and
`succeeded = 1`, and with only the USDT leg filled `succeeded = 0`. -/
theorem claim1_order_pair_success :
    (∀ s : Session,
        (calculateSessionStats s).orderPairs.attempted = (sessionFold s).pairMap.length
        ∧ (calculateSessionStats s).orderPairs.succeeded =
            (sessionFold s).pairMap.countP (fun kv => kv.2.usdtFilled && kv.2.usdcFilled)
        ∧ ((sessionFold s).pairMap.map Prod.fst).Nodup)
    ∧ (calculateSessionStats c1Pair).orderPairs.attempted = 1
    ∧ (calculateSessionStats c1Pair).orderPairs.succeeded = 1
    ∧ (calculateSessionStats c1Half).orderPairs.attempted = 1
    ∧ (calculateSessionStats c1Half).orderPairs.succeeded = 0 := by
  refine ⟨fun s => ⟨?_, ?_, ?_⟩, by decide, by decide, by decide, by decide⟩
  · unfold calculateSessionStats
    dsimp only
    rw [pairFold_attempted]
    have h : (sessionFold s).stats.orderPairs = {} :=
      eventsFold_orderPairs s.events _
    rw [h]
    simp
  · unfold calculateSessionStats
    dsimp only
    rw [pairFold_succeeded]
    have h : (sessionFold s).stats.orderPairs = {} :=
      eventsFold_orderPairs s.events _
    rw [h]
    simp
  · exact eventsFold_pairMap_nodup s.events _ (by simp)

/-- C10: after `calculateSessionStats`, `fills.total` equals
`fills.partial + fills.full`; a categorised `ORDER_FILL` event increments
`total` once and exactly one of partial/full, and no other event touches
the fills block. -/
theorem claim10_fill_counter_invariant :
    (∀ s : Session,
        (calculateSessionStats s).fills.total =
          (calculateSessionStats s).fills.partCount
            + (calculateSessionStats s).fills.fullCount)
    ∧ (∀ (e : LogEvent) (st : RState),
        catTruthy e.category = true → e.subcategory = some "ORDER_FILL" →
          (processEvent e st).stats.fills.total = st.stats.fills.total + 1
          ∧ (processEvent e st).stats.fills.partCount
              + (processEvent e st).stats.fills.fullCount
              = st.stats.fills.partCount + st.stats.fills.fullCount + 1)
    ∧ (∀ (e : LogEvent) (st : RState),
        ¬(catTruthy e.category = true ∧ e.subcategory = some "ORDER_FILL") →
          (processEvent e st).stats.fills = st.stats.fills) := by
  refine ⟨fun s => ?_, fun e st hc hs => ?_, fun e st hn => ?_⟩
  · unfold calculateSessionStats
    dsimp only
    rw [pairFold_fills]
    exact eventsFold_fills_inv s.events _ rfl
  · rw [processEvent_fills, if_pos ⟨hc, hs⟩, fillsUpdate_total, fillsUpdate_part_full]
    exact ⟨rfl, rfl⟩
  · rw [processEvent_fills, if_neg hn]

/-- C10 witness: the invariant facts instantiated at a concrete fill
event and a concrete non-fill event. -/
theorem claim10_fill_counter_invariant_witness :
    ((processEvent c10Fill {}).stats.fills.total = ({} : RState).stats.fills.total + 1
      ∧ (processEvent c10Fill {}).stats.fills.partCount
          + (processEvent c10Fill {}).stats.fills.fullCount
          = ({} : RState).stats.fills.partCount + ({} : RState).stats.fills.fullCount + 1)
    ∧ (processEvent c10Other {}).stats.fills = ({} : RState).stats.fills := by
  exact ⟨claim10_fill_counter_invariant.2.1 c10Fill {} (by decide) rfl,
    claim10_fill_counter_invariant.2.2 c10Other {} (by decide)⟩

/-! ### Aggregation linearity -/

attribute [ext] OrderPairsStats OrdersStats FillsStats FastChaseStats ErrorsStats SessionStats

theorem addSessionStats_eq (a b : SessionStats) : addSessionStats a b = specSum a b := rfl

theorem specSum_empty_right (a : SessionStats) : specSum a {} = a := by
  unfold specSum
  ext <;> simp

theorem specSum_empty_left (a : SessionStats) : specSum {} a = a := by
  unfold specSum
  ext <;> simp

theorem specSum_assoc (a b c : SessionStats) :
    specSum (specSum a b) c = specSum a (specSum b c) := by
  unfold specSum
  ext <;> simp [Nat.add_assoc, Int.add_assoc, add_assoc, List.append_assoc]

theorem aggFold_eq (B : List Session) (x : SessionStats) :
    B.foldl (fun agg s => addSessionStats agg (calculateSessionStats s)) x
      = specSum x
          (B.foldl (fun agg s => addSessionStats agg (calculateSessionStats s)) {}) := by
  induction B generalizing x with
  | nil => exact (specSum_empty_right x).symm
  | cons s rest ih =>
      rw [List.foldl_cons, List.foldl_cons, ih,
        ih (addSessionStats {} (calculateSessionStats s)),
        addSessionStats_eq, addSessionStats_eq, specSum_empty_left, specSum_assoc]

/-- C2: aggregate statistics are linear in the session list — computing
`calculateAggregateStats` over a concatenation of two (in particular,
disjoint) session lists equals the field-wise sum of the two aggregates,
with scalar counters and quantity totals added, sample lists
concatenated in order, and the fallback-reason mapping merged by summing
counts per key (`specSum`). -/
theorem claim2_aggregation_linearity (A B : List Session) :
    calculateAggregateStats (A ++ B) =
      specSum (calculateAggregateStats A) (calculateAggregateStats B) := by
  unfold calculateAggregateStats
  rw [List.foldl_append]
  exact aggFold_eq B _

/-! ### `ORDER_RESPONSE` classification -/

theorem processEvent_response (e : LogEvent) (st : RState)
    (hc : catTruthy e.category = true) (hs : e.subcategory = some "ORDER_RESPONSE") :
    processEvent e st = handleOrderResponse e st := by
  rw [processEvent, if_pos hc, if_neg (by simp [hs]), if_neg (by simp [hs]), if_pos hs]

/-- C3: a categorised `ORDER_RESPONSE` event carrying a (truthy) order-id
is classified as accepted or rejected by the `"Order accepted"` /
`"Order rejected"` message substrings or (for a matched order) by the
explicit payload status field; the `orders.accepted` / `orders.rejected`
counters are incremented accordingly, the matched order's status is
updated, and on rejection `errors.gtxRejections` is additionally
incremented when `"GTX"` appears in a truthy `error` field or in the
message. -/
theorem claim3_order_response_classification (e : LogEvent) (st : RState) (oid : JVal)
    (hc : catTruthy e.category = true)
    (hs : e.subcategory = some "ORDER_RESPONSE")
    (hid : truthyVal e.data.order_id = some oid) :
    ((processEvent e st).stats.orders.accepted =
        st.stats.orders.accepted
          + (if respAccepted e (alGet st.orderMap oid).isSome then 1 else 0))
    ∧ ((processEvent e st).stats.orders.rejected =
        st.stats.orders.rejected
          + (if respRejected e (alGet st.orderMap oid).isSome then 1 else 0))
    ∧ ((processEvent e st).stats.errors.gtxRejections =
        st.stats.errors.gtxRejections
          + (if respRejected e (alGet st.orderMap oid).isSome && gtxHit e then 1 else 0))
    ∧ (∀ ord, alGet st.orderMap oid = some ord →
        alGet (processEvent e st).orderMap oid =
          some { ord with status :=
            if respAccepted e true then "accepted"
            else if respRejected e true then "rejected"
            else ord.status }) := by
  rw [processEvent_response e st hc hs]
  unfold handleOrderResponse
  dsimp only
  rw [hid, respLatency_orderMap]
  repeat' split
  all_goals
    simp_all [respAccepted, respRejected, alGet_alUpdate, respLatency_orderMap,
      respLatency_accepted, respLatency_rejected, respLatency_errors]

/-! ### ERROR-level default classification -/

theorem processEvent_default (e : LogEvent) (st : RState)
    (hc : catTruthy e.category = true)
    (hn : e.subcategory ∉ handledSubcats) :
    processEvent e st = handleDefault e st := by
  simp only [handledSubcats, List.mem_cons, List.not_mem_nil, or_false, not_or] at hn
  obtain ⟨n1, n2, n3, n4, n5, n6, n7, n8, n9, n10, n11⟩ := hn
  rw [processEvent, if_pos hc, if_neg n1, if_neg n2, if_neg n3, if_neg n4, if_neg n5,
    if_neg n6, if_neg n7, if_neg n8, if_neg n9, if_neg n10, if_neg n11]

/-- C4 counterexample: the claim fails for an ERROR-level timeout event
that carries no category — the reducer's early return drops it, so
`errors.timeouts` is not incremented. -/
theorem claim4_counterexample :
    ¬ ((processEvent c4NoCat {}).stats.errors.timeouts =
        ({} : RState).stats.errors.timeouts + 1) := by decide

/-- C4 (amended): for an ERROR-level event that carries a (truthy)
category and whose subcategory is none of the dedicated cases, the
reducer increments exactly one of `errors.timeouts` / `errors.apiErrors`
/ `errors.other`, chosen by the `"timeout"` / `"API"` message substrings
in that priority, and changes nothing else; an ERROR-level event without
a category is skipped entirely. -/
theorem claim4_error_classification (e : LogEvent) (st : RState)
    (hc : catTruthy e.category = true)
    (hn : e.subcategory ∉ handledSubcats)
    (hl : e.level = "ERROR") :
    processEvent e st =
      { st with stats := { st.stats with errors := errClassify e st.stats.errors } }
      ∧ (msgIncludes e.message "timeout" = true →
          errClassify e st.stats.errors =
            { st.stats.errors with timeouts := st.stats.errors.timeouts + 1 })
      ∧ (msgIncludes e.message "timeout" = false → msgIncludes e.message "API" = true →
          errClassify e st.stats.errors =
            { st.stats.errors with apiErrors := st.stats.errors.apiErrors + 1 })
      ∧ (msgIncludes e.message "timeout" = false → msgIncludes e.message "API" = false →
          errClassify e st.stats.errors =
            { st.stats.errors with other := st.stats.errors.other + 1 }) := by
  refine ⟨?_, fun hT => ?_, fun hT hA => ?_, fun hT hA => ?_⟩
  · rw [processEvent_default e st hc hn]
    unfold handleDefault
    rw [if_pos hl]
  · rw [errClassify, if_pos hT]
  · rw [errClassify, if_neg (by simp [hT]), if_pos hA]
  · rw [errClassify, if_neg (by simp [hT]), if_neg (by simp [hA])]

/-- C4 witness: the amended classification applied to a concrete
categorised ERROR event with a timeout message. -/
theorem claim4_error_classification_witness :
    (processEvent c4Err {}).stats.errors.timeouts = 1
    ∧ (processEvent c4Err {}).stats.errors.apiErrors = 0
    ∧ (processEvent c4Err {}).stats.errors.other = 0 := by
  have h := claim4_error_classification c4Err {} (by decide) (by decide) rfl
  rw [h.1]
  decide

/-! ### Unmatched fills, GTX double counting, fill-quantity fallback -/

theorem processEvent_fill (e : LogEvent) (st : RState)
    (hc : catTruthy e.category = true) (hs : e.subcategory = some "ORDER_FILL") :
    processEvent e st = handleOrderFill e st := by
  rw [processEvent, if_pos hc, if_neg (by simp [hs]), if_neg (by simp [hs]),
    if_neg (by simp [hs]), if_pos hs]

theorem processEvent_state (e : LogEvent) (st : RState)
    (hc : catTruthy e.category = true) (hs : e.subcategory = some "ORDER_STATE") :
    processEvent e st = handleOrderState e st := by
  rw [processEvent, if_pos hc, if_neg (by simp [hs]), if_neg (by simp [hs]),
    if_neg (by simp [hs]), if_neg (by simp [hs]), if_neg (by simp [hs]),
    if_neg (by simp [hs]), if_neg (by simp [hs]), if_neg (by simp [hs]), if_pos hs]

/-- C6: a categorised `ORDER_FILL` whose order-id is absent, falsy, or
unmatched in the correlation table still performs all the
match-independent updates (`fillsUpdate`: fill counters, partial/full,
quantity totals, currency buckets, price sample) while every
correlation-dependent update is skipped: the correlation tables and all
other statistics are unchanged. -/
theorem claim6_unmatched_fill (e : LogEvent) (st : RState)
    (hc : catTruthy e.category = true)
    (hs : e.subcategory = some "ORDER_FILL")
    (hun : ∀ oid, truthyVal e.data.order_id = some oid → alGet st.orderMap oid = none) :
    processEvent e st =
      { st with stats := { st.stats with fills := fillsUpdate e st.stats.fills } } := by
  rw [processEvent_fill e st hc hs]
  unfold handleOrderFill orderFillCorrelate
  dsimp only
  cases ho : truthyVal e.data.order_id with
  | none => rfl
  | some oid =>
      dsimp only
      rw [hun oid ho]
      rfl

/-- C6 witness: the unmatched-fill behaviour at a concrete fill event on
the empty state. -/
theorem claim6_unmatched_fill_witness :
    processEvent c6Fill {} =
      { ({} : RState) with stats :=
          { ({} : RState).stats with fills := fillsUpdate c6Fill ({} : RState).stats.fills } } :=
  claim6_unmatched_fill c6Fill {} (by decide) rfl (by intro oid h; exact rfl)

/-- C7: a categorised `ORDER_STATE` event whose message contains
`"GTX rejected"` increments `errors.gtxRejections`, independently of the
increment made by `ORDER_RESPONSE` handling for the same logical
rejection: the concrete session holding a GTX-marked rejected response
and the matching `ORDER_STATE` event counts two GTX rejections. -/
theorem claim7_gtx_double_count :
    (∀ (e : LogEvent) (st : RState),
        catTruthy e.category = true → e.subcategory = some "ORDER_STATE" →
        msgIncludes e.message "GTX rejected" = true →
        (processEvent e st).stats.errors.gtxRejections
          = st.stats.errors.gtxRejections + 1)
    ∧ (calculateSessionStats c7Session).errors.gtxRejections = 2
    ∧ (calculateSessionStats c7Session).orders.rejected = 1 := by
  refine ⟨fun e st hc hs hm => ?_, by decide, by decide⟩
  rw [processEvent_state e st hc hs]
  unfold handleOrderState
  rw [if_pos hm]

/-- C7 witness: the `ORDER_STATE` increment at a concrete event. -/
theorem claim7_gtx_double_count_witness :
    (processEvent c7State {}).stats.errors.gtxRejections =
      ({} : RState).stats.errors.gtxRejections + 1 :=
  claim7_gtx_double_count.1 c7State {} (by decide) rfl (by decide)

theorem fillsUpdate_totalQty (e : LogEvent) (f : FillsStats) :
    (fillsUpdate e f).totalQty = f.totalQty + fillQty e.data := by
  unfold fillsUpdate
  dsimp only
  repeat' split
  all_goals rfl

theorem fillQty_eq_specFillQty (d : EventData) : fillQty d = specFillQty d := by
  unfold fillQty specFillQty orNonzero parsesNonzero parsedVal
  rcases parseFloatJ d.last_filled with _ | q1 <;>
    rcases parseFloatJ d.filled with _ | q2 <;>
      rcases parseFloatJ d.qty with _ | q3 <;>
        simp <;> split_ifs <;> simp_all

/-- C8: the quantity a categorised `ORDER_FILL` adds to `fills.totalQty`
is the `last_filled` field, falling back to `filled` when `last_filled`
is absent or does not parse to a nonzero number, then to `qty`, and
finally to 0 (`specFillQty`). -/
theorem claim8_fill_qty_fallback (e : LogEvent) (st : RState)
    (hc : catTruthy e.category = true)
    (hs : e.subcategory = some "ORDER_FILL") :
    (processEvent e st).stats.fills.totalQty =
      st.stats.fills.totalQty + specFillQty e.data := by
  rw [processEvent_fills, if_pos ⟨hc, hs⟩, fillsUpdate_totalQty, fillQty_eq_specFillQty]

/-- C8 witness: with `last_filled` parsing to zero and `filled` to 3,
the fallback contributes 3. -/
theorem claim8_fill_qty_fallback_witness :
    (processEvent c8Fill {}).stats.fills.totalQty = 3 := by
  have h := claim8_fill_qty_fallback c8Fill {} (by decide) rfl
  rw [h]
  norm_num [c8Fill, specFillQty, parsesNonzero, parsedVal, parseFloatJ]

/-! ### FIFO submit/response matching -/

theorem listFindIdx_some {α : Type} (p : α → Bool) (l : List α) (i : Nat)
    (h : listFindIdx p l = some i) :
    ∃ x, l[i]? = some x ∧ p x = true
      ∧ ∀ j, j < i → ∀ y, l[j]? = some y → p y = false := by
  induction l generalizing i with
  | nil => simp [listFindIdx] at h
  | cons a rest ih =>
      by_cases hp : p a = true
      · rw [listFindIdx, if_pos hp] at h
        obtain rfl : (0 : Nat) = i := by simpa using h
        exact ⟨a, by simp, hp, fun j hj => by omega⟩
      · rw [listFindIdx, if_neg hp] at h
        rcases hmap : listFindIdx p rest with _ | i2
        · rw [hmap] at h; simp at h
        · rw [hmap] at h
          simp only [Option.map_some', Option.some.injEq] at h
          obtain ⟨x, hx1, hx2, hx3⟩ := ih i2 hmap
          subst h
          refine ⟨x, by simpa using hx1, hx2, ?_⟩
          intro j hj y hy
          cases j with
          | zero =>
              have : y = a := by simpa using hy.symm
              subst this
              simpa using hp
          | succ j2 =>
              refine hx3 j2 (by omega) y ?_
              simpa using hy

theorem listFindIdx_none {α : Type} (p : α → Bool) (l : List α)
    (h : listFindIdx p l = none) : ∀ x ∈ l, p x = false := by
  induction l with
  | nil => simp
  | cons a rest ih =>
      by_cases hp : p a = true
      · rw [listFindIdx, if_pos hp] at h; simp at h
      · rw [listFindIdx, if_neg hp] at h
        intro x hx
        rcases List.mem_cons.mp hx with rfl | hx2
        · simpa using hp
        · refine ih ?_ x hx2
          simpa using h

/-- C5: in order-detail extraction an `ORDER_RESPONSE` carrying a truthy
order-id is matched to the earliest still-unmatched pending
`ORDER_SUBMIT` with the same symbol (FIFO per symbol); the matched
submission is consumed from the pending queue and its timestamp, side,
quantity and price populate the row; with no matching pending
submission, the row falls back to the response's own timestamp with
absent side, quantity and price, and the queue is unchanged.  The
per-session variant consumes its pending queue identically. -/
theorem claim5_fifo_matching (st : ODState) (e : LogEvent) (oid : JVal)
    (hs : e.subcategory = some "ORDER_RESPONSE")
    (hid : truthyVal e.data.order_id = some oid) :
    (∀ i, findSubmit st.pending e.data.symbol = some i →
        ∃ s, st.pending[i]? = some s ∧ s.symbol = e.data.symbol
          ∧ (∀ j, j < i → ∀ s2, st.pending[j]? = some s2 → s2.symbol ≠ e.data.symbol)
          ∧ (odStep st e).pending = st.pending.eraseIdx i
          ∧ (odStep st e).orders = st.orders ++
              [{ submitTime := s.timestamp, symbol := e.data.symbol, side := s.side,
                 orderType := s.orderType, quantity := s.quantity, price := s.price,
                 status := if msgIncludes e.message "Order accepted" then "accepted"
                           else if msgIncludes e.message "Order rejected" then "rejected"
                           else "unknown",
                 orderId := some oid, latency := truthyVal e.data.latency_ms,
                 pairId := none }])
    ∧ (findSubmit st.pending e.data.symbol = none →
        (∀ s ∈ st.pending, s.symbol ≠ e.data.symbol)
        ∧ (odStep st e).pending = st.pending
        ∧ (odStep st e).orders = st.orders ++
            [{ submitTime := e.timestamp, symbol := e.data.symbol, side := none,
               orderType := .str "LIMIT", quantity := none, price := none,
               status := if msgIncludes e.message "Order accepted" then "accepted"
                         else if msgIncludes e.message "Order rejected" then "rejected"
                         else "unknown",
               orderId := some oid, latency := truthyVal e.data.latency_ms,
               pairId := none }])
    ∧ (∀ st2 : OBSState, (obsStep st2 e).pending =
        match findSubmit st2.pending e.data.symbol with
        | some i => st2.pending.eraseIdx i
        | none => st2.pending) := by
  refine ⟨fun i hi => ?_, fun hnone => ?_, fun st2 => ?_⟩
  · obtain ⟨s, hx1, hx2, hx3⟩ :=
      listFindIdx_some (fun s => decide (s.symbol = e.data.symbol)) st.pending i
        (by simpa [findSubmit] using hi)
    refine ⟨s, hx1, of_decide_eq_true hx2, ?_, ?_, ?_⟩
    · intro j hj s2 hs2
      simpa using hx3 j hj s2 hs2
    · unfold odStep
      rw [if_neg (by simp [hs]), if_pos hs, hid]
      dsimp only
      rw [hi]
    · unfold odStep
      rw [if_neg (by simp [hs]), if_pos hs, hid]
      dsimp only
      rw [hi]
      dsimp only
      rw [hx1]
  · have hall := listFindIdx_none (fun s => decide (s.symbol = e.data.symbol)) st.pending
      (by simpa [findSubmit] using hnone)
    refine ⟨fun s hs2 => by simpa using hall s hs2, ?_, ?_⟩
    · unfold odStep
      rw [if_neg (by simp [hs]), if_pos hs, hid]
      dsimp only
      rw [hnone]
    · unfold odStep
      rw [if_neg (by simp [hs]), if_pos hs, hid]
      dsimp only
      rw [hnone]
  · unfold obsStep
    rw [if_neg (by simp [hs]), if_pos hs, hid]

/-! ### Fill rows in the two extraction variants -/

theorem listModify_length {α : Type} (l : List α) (i : Nat) (f : α → α) :
    (listModify l i f).length = l.length := by
  induction l generalizing i with
  | nil => rfl
  | cons a rest ih =>
      cases i with
      | zero => rfl
      | succ n => simp [listModify, ih]

theorem listFindIdx_append_left {α : Type} (p : α → Bool) (l1 l2 : List α) (i : Nat)
    (h : listFindIdx p l1 = some i) : listFindIdx p (l1 ++ l2) = some i := by
  induction l1 generalizing i with
  | nil => simp [listFindIdx] at h
  | cons a rest ih =>
      by_cases hp : p a = true
      · rw [listFindIdx, if_pos hp] at h
        rw [List.cons_append, listFindIdx, if_pos hp]
        exact h
      · rw [listFindIdx, if_neg hp] at h
        rcases hm : listFindIdx p rest with _ | i2
        · rw [hm] at h; simp at h
        · rw [hm] at h
          rw [List.cons_append, listFindIdx, if_neg hp, ih i2 hm]
          simpa using h

theorem listFindIdx_eq_none {α : Type} (p : α → Bool) (l : List α)
    (h : ∀ x ∈ l, p x = false) : listFindIdx p l = none := by
  induction l with
  | nil => rfl
  | cons a rest ih =>
      rw [listFindIdx, if_neg (by simp [h a (List.mem_cons_self a rest)])]
      rw [ih (fun x hx => h x (List.mem_cons_of_mem _ hx))]
      rfl

theorem eraseIdx_append_left {α : Type} (l1 l2 : List α) (i : Nat) (h : i < l1.length) :
    (l1 ++ l2).eraseIdx i = l1.eraseIdx i ++ l2 := by
  induction l1 generalizing i with
  | nil => simp at h
  | cons a rest ih =>
      cases i with
      | zero => simp
      | succ n =>
          simp only [List.cons_append, List.eraseIdx_cons_succ]
          rw [ih n (by simpa using h)]

theorem rowPredFalse {A B : Prop} [Decidable A] [Decidable B] (h : ¬(A ∧ B)) :
    (decide A && decide B) = false := by
  by_cases hA : A <;> by_cases hB : B <;> simp_all

/-- C9 counterexample: in the per-session variant a fill removes only
the earliest accepted row for its order-id — in the concrete session
with two accepted responses for `X` followed by a fill of `X`, order `X`
produced a fill row yet a row with status `accepted` for `X` is still in
the final row list. -/
theorem claim9_counterexample :
    (∃ r ∈ (extractOrdersBySession [c9Session]).headD [],
        r.orderId = some (JVal.str "X") ∧ r.status = "filled")
    ∧ ∃ r ∈ (extractOrdersBySession [c9Session]).headD [],
        r.orderId = some (JVal.str "X") ∧ r.status = "accepted" := by
  decide

/-- C9 (amended): in the per-session variant, each `ORDER_FILL` appends
a dedicated fill row (`obsFillRow`, status `partial`/`filled`) and then
removes at most the earliest existing row for that order-id whose status
is `accepted` — not every such row; when no accepted row for the
order-id exists, the row list is just extended by the fill row.  In the
cross-session variant a fill never changes the row count and mutates the
mapped row in place (`listModify` with `odFillMutate`). -/
theorem claim9_fill_row_replacement :
    (∀ (st : OBSState) (e : LogEvent), e.subcategory = some "ORDER_FILL" →
        ∃ fr : OrderDetail,
          fr.orderId = e.data.order_id
          ∧ fr.status = (if msgIncludes e.message "Partial fill" then "partial" else "filled")
          ∧ fr.fillTime = some e.timestamp
          ∧ ((∀ r ∈ st.rows, ¬(r.orderId = e.data.order_id ∧ r.status = "accepted")) →
              (obsStep st e).rows = st.rows ++ [fr])
          ∧ (∀ i, listFindIdx (fun r => decide (r.orderId = e.data.order_id)
                && decide (r.status = "accepted")) st.rows = some i →
              (obsStep st e).rows = st.rows.eraseIdx i ++ [fr]))
    ∧ (∀ (st : ODState) (e : LogEvent), e.subcategory = some "ORDER_FILL" →
        (odStep st e).orders.length = st.orders.length
        ∧ (∀ oid idx, truthyVal e.data.order_id = some oid →
            alGet st.orderMap oid = some idx →
            (odStep st e).orders = listModify st.orders idx (odFillMutate e))) := by
  constructor
  · intro st e he
    refine ⟨obsFillRow e (match e.data.order_id with
      | some v => alGet st.orderMap v
      | none => none), rfl, rfl, rfl, fun hno => ?_, fun i hi => ?_⟩
    · unfold obsStep
      rw [if_neg (by simp [he]), if_neg (by simp [he]), if_pos he]
      dsimp only
      rw [listFindIdx_eq_none _ _ ?_]
      · intro x hx
        rcases List.mem_append.mp hx with hx1 | hx2
        · exact rowPredFalse (hno x hx1)
        · have hx3 : x = obsFillRow e (match e.data.order_id with
            | some v => alGet st.orderMap v
            | none => none) := by simpa using hx2
          subst hx3
          by_cases hp : msgIncludes e.message "Partial fill" = true <;>
            simp [obsFillRow, hp]
    · unfold obsStep
      rw [if_neg (by simp [he]), if_neg (by simp [he]), if_pos he]
      dsimp only
      rw [listFindIdx_append_left _ _ _ i hi]
      dsimp only
      obtain ⟨x, hx1, _, _⟩ := listFindIdx_some _ _ _ hi
      have hlt : i < st.rows.length := by
        rcases List.getElem?_eq_some.mp hx1 with ⟨hl, _⟩
        exact hl
      rw [eraseIdx_append_left _ _ i hlt]
  · intro st e he
    have hbranch : odStep st e =
        match truthyVal e.data.order_id with
        | some oid =>
            match alGet st.orderMap oid with
            | some idx => { st with orders := listModify st.orders idx (odFillMutate e) }
            | none => st
        | none => st := by
      unfold odStep
      rw [if_neg (by simp [he]), if_neg (by simp [he]), if_pos he]
    refine ⟨?_, fun oid idx h1 h2 => ?_⟩
    · rw [hbranch]
      cases truthyVal e.data.order_id with
      | none => rfl
      | some oid =>
          dsimp only
          cases alGet st.orderMap oid with
          | none => rfl
          | some idx => exact listModify_length st.orders idx (odFillMutate e)
    · rw [hbranch, h1]
      dsimp only
      rw [h2]

/-- C9 witness: the amended behaviour at a concrete state holding one
accepted row for `X`, filled by a concrete fill event; and the
cross-session variant's row count on the empty state. -/
theorem claim9_fill_row_replacement_witness :
    (∃ fr : OrderDetail, fr.status = "filled" ∧ (obsStep c9OBS c9Fill).rows = [fr])
    ∧ (odStep {} c9Fill).orders.length = 0 := by
  constructor
  · obtain ⟨fr, h1, h2, h3, h4, h5⟩ := claim9_fill_row_replacement.1 c9OBS c9Fill rfl
    refine ⟨fr, ?_, ?_⟩
    · rw [h2]; decide
    · have h6 := h5 0 (by decide)
      rw [h6]
      rfl
  · exact (claim9_fill_row_replacement.2 {} c9Fill rfl).1

/-- C3 witness: the classification at a concrete accepted response with
no prior submit. -/
theorem claim3_order_response_classification_witness :
    (processEvent c3Event {}).stats.orders.accepted = 1
    ∧ (processEvent c3Event {}).stats.orders.rejected = 0 := by
  have h := claim3_order_response_classification c3Event {} (JVal.str "w3")
    (by decide) rfl (by decide)
  exact ⟨by rw [h.1]; decide, by rw [h.2.1]; decide⟩

/-- C5 witness: the FIFO match at a concrete queue — the response for
symbol `A` consumes the earliest pending `A` submission. -/
theorem claim5_fifo_matching_witness :
    (odStep c5State c5Event).pending = c5State.pending.eraseIdx 0
    ∧ (odStep c5State c5Event).orders.length = 1 := by
  obtain ⟨s, hx1, hx2, hx3, hp, ho⟩ :=
    (claim5_fifo_matching c5State c5Event (JVal.str "o5") rfl (by decide)).1 0 (by decide)
  exact ⟨hp, by rw [ho]; rfl⟩
